import Mathlib

/-!
Verification development for the email content generation and caching engine
(`ProspectEmailGenerator` in `utils/prospect_email_generator.py`).

The Python module is shallowly embedded:
- Python dicts used as JSON objects / caches become insertion-ordered
  association lists (`List (String × α)`), with `dictGet`/`dictSet` mirroring
  Python subscript lookup and assignment semantics (assignment updates the
  first matching key in place, otherwise appends; lookup finds the first).
- Contact records become a structure of `Option` fields; a `none` field is an
  absent dict key, so direct subscripting (`contact_info['x']`) is a `match`
  that produces `Except.error "KeyError: x"`, mirroring a raised `KeyError`,
  while `.get(...)` accesses use `Option.getD`.
- The filesystem state touched by the generator (local cache backing file,
  `friends_shared_cache.json`, `friends_data.json`) is an explicit
  `GenState`; a file's content is modelled as its parsed JSON value (the
  textual dump of a given value is unique, so equality/inequality of these
  fields stands for byte equality/inequality of the files).
- The AI provider is an oracle parameter `air : Except String String`: either
  a raised provider error or the raw response text.  `datetime.now()` is an
  explicit clock parameter `now : String` (one reading per call).
- `json.loads` as applied to the provider response is modelled by a parser
  for the flat-string-object fragment of JSON (`jsonLoads`); inputs outside
  the fragment parse as failures, which the surrounding code treats as a
  parse error.
-/

/-- Quote character, kept abstract so string literals stay simple. -/
def qm : String := String.mk [Char.ofNat 34]

/-- Apostrophe, as a one-character string. -/
def apos : String := String.mk [Char.ofNat 39]

/-- Opening curly brace character. -/
def lbrace : Char := Char.ofNat 123

/-- Closing curly brace character. -/
def rbrace : Char := Char.ofNat 125

/-- Whether `pat` occurs (as a contiguous sublist) in `s`, matching the
positions Python `str.replace` scans. -/
def occursL (pat : List Char) : List Char → Bool
  | [] => pat.isEmpty
  | c :: rest => pat.isPrefixOf (c :: rest) || occursL pat rest

/-- Python `needle in hay` substring test. -/
def substr (needle hay : String) : Bool :=
  occursL needle.data hay.data

/-- Python `s.lower()` (ASCII case folding; every table keyword and marker
the module lowers is ASCII). -/
def toLowerS (s : String) : String :=
  String.mk (s.data.map Char.toLower)

/-- Split a character list at every occurrence of `c`, keeping empty
pieces — the semantics of Python `s.split(c)`. -/
def splitOnChar (c : Char) : List Char → List (List Char)
  | [] => [[]]
  | x :: rest =>
    let r := splitOnChar c rest
    if x == c then [] :: r
    else
      match r with
      | [] => [[x]]
      | h :: t => (x :: h) :: t

/-- Python `s.split('\n')`. -/
def splitLines (s : String) : List String :=
  (splitOnChar '\n' s.data).map String.mk

/-- Python `hay.startswith needle`. -/
def startsWith (needle hay : String) : Bool :=
  needle.data.isPrefixOf hay.data

/-- Leftmost, non-overlapping replacement of `pat` by `repl`, the semantics of
Python `str.replace` for a non-empty pattern (every pattern passed by the
generator is non-empty). -/
def replaceL (pat repl : List Char) : List Char → List Char
  | [] => []
  | c :: rest =>
    if h : pat ≠ [] ∧ pat.isPrefixOf (c :: rest) then
      repl ++ replaceL pat repl ((c :: rest).drop pat.length)
    else
      c :: replaceL pat repl rest
termination_by s => s.length
decreasing_by
  · simp only [List.length_drop, List.length_cons]
    have hp : 1 ≤ pat.length := by
      cases pat with
      | nil => exact absurd rfl h.1
      | cons a l => simp
    omega
  · simp

/-- Python `s.replace(pat, repl)`. -/
def strReplace (s pat repl : String) : String :=
  String.mk (replaceL pat.data repl.data s.data)

/-- Python dict lookup: first entry with the given key. -/
def dictGet (d : List (String × α)) (k : String) : Option α :=
  (d.find? (fun p => p.1 == k)).map (fun p => p.2)

/-- Python dict assignment: update the first entry with the key in place,
otherwise append at the end (dicts preserve insertion order). -/
def dictSet : List (String × α) → String → α → List (String × α)
  | [], k, v => [(k, v)]
  | (k', v') :: rest, k, v =>
    if k' == k then (k', v) :: rest else (k', v') :: dictSet rest k v

/-- Strip characters satisfying `p` from both ends (Python `str.strip`). -/
def stripChars (p : Char → Bool) (s : String) : String :=
  String.mk (((s.data.dropWhile p).reverse.dropWhile p).reverse)

/-- Python `line.split(':', 1)[1]`: everything after the first colon. -/
def afterColon (s : String) : String :=
  String.mk ((s.data.dropWhile (fun c => c != ':')).drop 1)

/-- The `.strip().strip('"').strip()` cleanup applied by the manual response
extractor. -/
def cleanPiece (s : String) : String :=
  stripChars Char.isWhitespace
    (stripChars (fun c => c == Char.ofNat 34) (stripChars Char.isWhitespace s))

/-- A generated email as the JSON object the code passes around
(`{'subject': ..., 'body': ...}`, possibly with further keys when it came
from `json.loads`). -/
abbrev EmailData := List (String × String)

/-- A value stored in the local cache dict: either an entry written by
`save_to_cache` / the AI generator (`{'email_data': ..., 'timestamp': ...}`)
or a full shared-cache record absorbed from `friends_shared_cache.json`
(`{'email': ..., 'company': ..., 'timestamp': ..., 'email_data': ...}`). -/
inductive CVal where
  | entryLocal (email_data : EmailData) (timestamp : String)
  | entryShared (email company timestamp : String) (email_data : EmailData)
deriving DecidableEq, Repr

/-- The `['email_data']` field of a cache value. -/
def CVal.email_data : CVal → EmailData
  | .entryLocal ed _ => ed
  | .entryShared _ _ _ ed => ed

/-- Mutable state visible to the generator: the in-memory cache dict and the
parsed contents of the three JSON files it touches.  `none` for a file means
the file does not exist (or is unreadable). `friendsFile` keeps just the
`sharing_enabled` flag of each entry of `friends_data.json['friends']`. -/
structure GenState where
  cache : List (String × CVal)
  cacheFile : List (String × CVal)
  sharedFile : Option (List (String × CVal))
  friendsFile : Option (List Bool)
deriving DecidableEq, Repr

/-- Immutable per-instance data of `ProspectEmailGenerator`: sender profile
and the Azure OpenAI configuration read from the environment. -/
structure Gen where
  your_name : String
  your_position : String
  company_name : String
  your_contact : String
  api_key : Option String
  api_endpoint : Option String
  deployment_name : Option String
deriving DecidableEq, Repr

/-- A contact record; `none` fields are absent keys. -/
structure Contact where
  first_name : Option String
  last_name : Option String
  email : Option String
  company : Option String
  position : Option String
  industry : Option String
  technologies : Option (List String)
  keywords : Option (List String)
  challenges : Option (List String)
deriving DecidableEq, Repr

/-- The keyword → challenge lookup table of `extract_company_challenges`,
in source order. -/
def tech_challenge_map : List (String × String) :=
  [("legacy", "modernisation des systèmes hérités"),
   ("mainframe", "modernisation des systèmes hérités"),
   ("cobol", "modernisation des systèmes hérités"),
   ("on-premise", "migration vers le cloud"),
   ("on premise", "migration vers le cloud"),
   ("excel", "automatisation des processus"),
   ("manual", "automatisation des processus"),
   ("data", "analyse de données"),
   ("analytics", "analyse de données"),
   ("ai", "intelligence artificielle"),
   ("ml", "machine learning"),
   ("security", "cybersécurité"),
   ("secure", "cybersécurité"),
   ("compliance", "conformité réglementaire"),
   ("regulation", "conformité réglementaire"),
   ("customer", "expérience client"),
   ("crm", "gestion de la relation client"),
   ("cost", "réduction des coûts"),
   ("automation", "automatisation des processus")]

/-- One table entry applied to one scanned item: append the challenge if the
keyword occurs in the item (case-insensitively) and is not yet collected. -/
def scanOne (item : String) (ch2 : List String) (kv : String × String) : List String :=
  if substr (toLowerS kv.1) (toLowerS item) && !(ch2.contains kv.2) then
    ch2 ++ [kv.2]
  else ch2

/-- One scan pass: for each item, run every table entry in order. -/
def scanItems (items : List String) (challenges : List String) : List String :=
  items.foldl (fun ch item => tech_challenge_map.foldl (scanOne item) ch) challenges

/-- The position-based fallback heuristic (the argument is the already
lower-cased position string). -/
def positionChallenge (position : String) : String :=
  if substr "cto" position || substr "technology" position || substr "tech" position then
    "innovation technologique"
  else if substr "cio" position || substr "information" position then
    "transformation digitale"
  else if substr "ceo" position || substr "founder" position || substr "president" position then
    "croissance de l" ++ apos ++ "entreprise"
  else if substr "cfo" position || substr "finance" position then
    "optimisation des coûts"
  else if substr "marketing" position then
    "génération de leads"
  else if substr "sales" position || substr "revenue" position then
    "augmentation des ventes"
  else if substr "hr" position || substr "people" position || substr "talent" position then
    "gestion des talents"
  else if substr "product" position then
    "innovation produit"
  else if substr "operations" position || substr "coo" position then
    "efficacité opérationnelle"
  else
    "transformation digitale"

/-- The two scan passes of `extract_company_challenges`: technologies (when
present and truthy), then keywords (when present and truthy). -/
def gatherChallenges (contact_info : Contact) : List String :=
  let challenges :=
    match contact_info.technologies with
    | some ts => if ts.isEmpty then [] else scanItems ts []
    | none => []
  match contact_info.keywords with
  | some ks => if ks.isEmpty then challenges else scanItems ks challenges
  | none => challenges

/-- `ProspectEmailGenerator.extract_company_challenges`: explicit challenges
are returned verbatim when non-empty; otherwise technologies then keywords
are scanned against the table; otherwise the position heuristic runs (the
industry field is read but unused, as in the source). -/
def extract_company_challenges (contact_info : Contact) : List String :=
  match contact_info.challenges with
  | some (c :: cs) => c :: cs
  | _ =>
    let challenges := gatherChallenges contact_info
    if challenges.isEmpty then
      let _industry := toLowerS (contact_info.industry.getD "")
      let position := toLowerS (contact_info.position.getD "")
      [positionChallenge position]
    else
      challenges

/-- The French → English challenge translation table of
`generate_email_content_with_template`, in source order. -/
def challenge_map : List (String × String) :=
  [("transformation digitale", "digital transformation"),
   ("modernisation des systèmes hérités", "legacy system modernization"),
   ("migration vers le cloud", "cloud migration"),
   ("automatisation des processus", "process automation"),
   ("analyse de données", "data analytics"),
   ("intelligence artificielle", "artificial intelligence"),
   ("machine learning", "machine learning"),
   ("cybersécurité", "cybersecurity"),
   ("conformité réglementaire", "regulatory compliance"),
   ("expérience client", "customer experience"),
   ("gestion de la relation client", "customer relationship management"),
   ("réduction des coûts", "cost reduction"),
   ("croissance de l" ++ apos ++ "entreprise", "business growth"),
   ("innovation technologique", "technological innovation"),
   ("optimisation des coûts", "cost optimization"),
   ("génération de leads", "lead generation"),
   ("augmentation des ventes", "sales growth"),
   ("gestion des talents", "talent management"),
   ("innovation produit", "product innovation"),
   ("efficacité opérationnelle", "operational efficiency")]

/-- The bracket-placeholder default template set in `__init__`. -/
def default_template : String :=
  "\nDear [FirstName],\n\nI hope this email finds you well. My name is [YourName], [YourPosition] at [YourCompany], and I noticed that [Company] has been making significant strides in the [Industry] sector.\n\n[CustomParagraph]\n\nI" ++ apos ++ "d love to schedule a brief call to discuss how our AI solutions could specifically help [Company] with [Challenge]. Would you be available for a 15-minute conversation next week?\n\nBest regards,\n[YourName]\n[YourPosition]\n[YourContact]\n"

/-- `ProspectEmailGenerator.generate_email_content_with_template` (second
class definition, the effective one): challenge selection, translation, and
bracket-placeholder substitution.  Subscripting a missing `company` or
`first_name` raises `KeyError` (in that evaluation order). -/
def generate_email_content_with_template (g : Gen) (contact_info : Contact) :
    Except String EmailData :=
  let challenges := extract_company_challenges contact_info
  let selected_challenge :=
    match challenges with
    | [] => "transformation digitale"
    | c :: _ => c
  let english_challenge := (dictGet challenge_map selected_challenge).getD "digital transformation"
  match contact_info.company with
  | none => Except.error "KeyError: company"
  | some company =>
    match contact_info.first_name with
    | none => Except.error "KeyError: first_name"
    | some first_name =>
      let custom_paragraph :=
        "I understand that " ++ company ++ " might be facing challenges related to " ++
          english_challenge ++
          ". Our AI solutions have helped similar companies in your industry to address these challenges, resulting in significant efficiency improvements and cost savings."
      let body := strReplace default_template "[FirstName]" first_name
      let body := strReplace body "[YourName]" g.your_name
      let body := strReplace body "[YourCompany]" g.company_name
      let body := strReplace body "[Company]" company
      let body := strReplace body "[Industry]" (contact_info.industry.getD "technology")
      let body := strReplace body "[CustomParagraph]" custom_paragraph
      let body := strReplace body "[Challenge]" english_challenge
      let body := strReplace body "[YourPosition]" g.your_position
      let body := strReplace body "[YourContact]" g.your_contact
      let subject := "AI Solutions for " ++ english_challenge ++ " at " ++ company
      Except.ok [("subject", subject), ("body", body)]

/-- Decode one JSON string escape character. -/
def jsonEscape (c : Char) : Option Char :=
  if c == Char.ofNat 34 then some (Char.ofNat 34)
  else if c == Char.ofNat 92 then some (Char.ofNat 92)
  else if c == '/' then some '/'
  else if c == 'n' then some '\n'
  else if c == 't' then some '\t'
  else if c == 'r' then some '\r'
  else none

/-- Parse the body of a JSON string literal (the opening quote already
consumed), returning the decoded string and the remaining input. -/
def jstrBody : List Char → List Char → Option (String × List Char)
  | [], _ => none
  | c :: rest, acc =>
    if c == Char.ofNat 34 then some (String.mk acc.reverse, rest)
    else if c == Char.ofNat 92 then
      match rest with
      | [] => none
      | e :: rest2 =>
        match jsonEscape e with
        | some d => jstrBody rest2 (d :: acc)
        | none => none
    else jstrBody rest (c :: acc)

/-- Skip JSON whitespace. -/
def skipWs (cs : List Char) : List Char :=
  cs.dropWhile (fun c => c == ' ' || c == '\n' || c == '\t' || c == '\r')

/-- Parse the members of a flat JSON object of string keys and string values,
starting right after the opening brace (fuelled by the input length). -/
def jsonMembers : Nat → List Char → Option (List (String × String) × List Char)
  | 0, _ => none
  | fuel + 1, cs =>
    match skipWs cs with
    | c :: rest =>
      if c == Char.ofNat 34 then
        match jstrBody rest [] with
        | none => none
        | some (k, cs2) =>
          match skipWs cs2 with
          | ':' :: cs3 =>
            match skipWs cs3 with
            | c2 :: rest2 =>
              if c2 == Char.ofNat 34 then
                match jstrBody rest2 [] with
                | none => none
                | some (v, cs4) =>
                  match skipWs cs4 with
                  | ',' :: cs5 =>
                    match jsonMembers fuel cs5 with
                    | some (ms, cs6) => some ((k, v) :: ms, cs6)
                    | none => none
                  | c3 :: cs6 =>
                    if c3 == rbrace then some ([(k, v)], cs6) else none
                  | [] => none
              else none
            | [] => none
          | _ => none
      else none
    | [] => none

/-- Model of `json.loads` on the flat-string-object JSON fragment.  Duplicate
keys follow Python semantics (last assignment wins, first position kept). -/
def jsonLoads (s : String) : Option (List (String × String)) :=
  match skipWs s.data with
  | c :: cs =>
    if c == lbrace then
      match skipWs cs with
      | d :: cs2 =>
        if d == rbrace then
          if (skipWs cs2).isEmpty then some [] else none
        else
          match jsonMembers (d :: cs2).length (d :: cs2) with
          | some (ms, rest) =>
            if (skipWs rest).isEmpty then
              some (ms.foldl (fun acc kv => dictSet acc kv.1 kv.2) [])
            else none
          | none => none
      | [] => none
    else none
  | [] => none

/-- First index of a character in a string (Python `str.find`). -/
def strFind (cs : List Char) (c : Char) : Option Nat :=
  cs.findIdx? (fun x => x == c)

/-- Last index of a character in a string (Python `str.rfind`). -/
def strRFind (cs : List Char) (c : Char) : Option Nat :=
  match cs.reverse.findIdx? (fun x => x == c) with
  | some j => some (cs.length - 1 - j)
  | none => none

/-- Primary response-parsing strategy of
`generate_email_content_with_ai` (second class): slice from the first `{` to
the last `}`, `json.loads` it, and require the `subject` and `body` keys to
be present; any failure is `none` (a raised error, caught by the caller). -/
def parsePrimary (response_text : String) : Option EmailData :=
  let cs := response_text.data
  match strFind cs lbrace, strRFind cs rbrace with
  | some start_idx, some e =>
    let end_idx := e + 1
    if start_idx < end_idx then
      let json_str := String.mk ((cs.drop start_idx).take (end_idx - start_idx))
      match jsonLoads json_str with
      | some email_data =>
        if (dictGet email_data "subject").isSome && (dictGet email_data "body").isSome then
          some email_data
        else none
      | none => none
    else none
  | _, _ => none

/-- The line markers that terminate a manually-extracted body. -/
def isMarker (l : String) : Bool :=
  [qm ++ "subject" ++ qm ++ ":", "subject:", qm ++ "to" ++ qm ++ ":", "to:"].any
    (fun k => substr k (toLowerS l))

/-- The `while` loop locating the end of the manually-extracted body: first
marker line strictly after line `i`, else the number of lines. -/
def findBodyEnd (lines : List String) (i : Nat) : Nat :=
  match (lines.drop (i + 1)).findIdx? isMarker with
  | some j => i + 1 + j
  | none => lines.length

/-- The scan of the manual-extraction fallback: first line holding
`subject`+`:` sets the subject, first line holding `body`+`:` sets the body
from the joined lines up to the next marker. -/
def manualLoop (lines : List String) :
    List (Nat × String) → String × String → String × String
  | [], acc => acc
  | (i, line) :: rest, (subject, body) =>
    if substr "subject" (toLowerS line) && substr ":" line && subject == "" then
      manualLoop lines rest (cleanPiece (afterColon line), body)
    else if substr "body" (toLowerS line) && substr ":" line && body == "" then
      let body_end := findBodyEnd lines i
      let joined := String.intercalate "\n" ((lines.drop i).take (body_end - i))
      manualLoop lines rest (subject, cleanPiece (afterColon joined))
    else
      manualLoop lines rest (subject, body)

/-- Manual-extraction fallback of the AI response parser; `none` models the
`ValueError` raised when subject or body could not be extracted. -/
def parseManual (response_text : String) : Option EmailData :=
  let lines := splitLines response_text
  match manualLoop lines lines.enum ("", "") with
  | (subject, body) =>
    if subject == "" || body == "" then none
    else some [("subject", subject), ("body", body)]

/-- Combined response parsing: the primary JSON strategy, falling back to
manual extraction when the primary raises. -/
def parseResponse (response_text : String) : Option EmailData :=
  match parsePrimary response_text with
  | some d => some d
  | none => parseManual response_text

/-- `ProspectEmailGenerator.verify_api_configuration`: key present and at
least 10 characters, endpoint present with `https://` scheme and an Azure
host suffix, deployment name present. -/
def verify_api_configuration (g : Gen) : Bool :=
  (match g.api_key with
   | none => false
   | some k => decide (10 ≤ k.length)) &&
  (match g.api_endpoint with
   | none => false
   | some e =>
     startsWith "https://" e &&
       (substr ".openai.azure.com" e || substr ".cognitiveservices.azure.com" e)) &&
  (match g.deployment_name with
   | none => false
   | some _ => true)

/-- `ProspectEmailGenerator.save_cache`: dump the in-memory cache to the
backing file (write failures are logged, not modelled). -/
def save_cache (st : GenState) : GenState :=
  { st with cacheFile := st.cache }

/-- `ProspectEmailGenerator.sync_with_friends_cache`: no-op without a friends
roster or without sharing-enabled friends; otherwise upsert a shared entry
keyed by `email + "_" + company` into `friends_shared_cache.json`. -/
def sync_with_friends_cache (st : GenState) (now email company : String)
    (email_data : EmailData) : GenState :=
  match st.friendsFile with
  | none => st
  | some friends =>
    if (friends.filter (fun b => b)).isEmpty then st
    else
      let shared := st.sharedFile.getD []
      let entry := CVal.entryShared email company now email_data
      { st with sharedFile := some (dictSet shared (email ++ "_" ++ company) entry) }

/-- `ProspectEmailGenerator.save_to_cache`: store the entry in the in-memory
cache, persist, then mirror to the friends shared cache. -/
def save_to_cache (st : GenState) (now email company : String)
    (email_data : EmailData) : GenState :=
  let contact_id := email ++ "_" ++ company
  let st1 := save_cache { st with cache := dictSet st.cache contact_id (CVal.entryLocal email_data now) }
  sync_with_friends_cache st1 now email company email_data

/-- `ProspectEmailGenerator.verify_contact_in_cache`: local lookup first;
on a miss, look in `friends_shared_cache.json` and absorb a hit into the
local cache (persisting it); I/O errors read as not-found. -/
def verify_contact_in_cache (st : GenState) (contact_email company : String) :
    Bool × GenState :=
  let contact_id := contact_email ++ "_" ++ company
  match dictGet st.cache contact_id with
  | some _ => (true, st)
  | none =>
    match st.sharedFile with
    | none => (false, st)
    | some friends_cache =>
      match dictGet friends_cache contact_id with
      | some entry =>
        (true, save_cache { st with cache := dictSet st.cache contact_id entry })
      | none => (false, st)

/-- `ProspectEmailGenerator.generate_email_content_with_ai` (second class):
cache lookup, configuration check with template fallback, prompt
construction (which subscripts `first_name` and `last_name`), provider
call via the oracle `air`, response parsing, caching of a parsed result,
and template fallback on provider or parse failure. -/
def generate_email_content_with_ai (g : Gen) (st : GenState) (now : String)
    (air : Except String String) (contact_info : Contact) :
    Except String (EmailData × GenState) :=
  match contact_info.email with
  | none => Except.error "KeyError: email"
  | some email =>
    match contact_info.company with
    | none => Except.error "KeyError: company"
    | some company =>
      let contact_id := email ++ "_" ++ company
      match dictGet st.cache contact_id with
      | some entry => Except.ok (entry.email_data, st)
      | none =>
        if !verify_api_configuration g then
          (generate_email_content_with_template g contact_info).map (fun ed => (ed, st))
        else
          let _challenges := extract_company_challenges contact_info
          match contact_info.first_name with
          | none => Except.error "KeyError: first_name"
          | some _ =>
            match contact_info.last_name with
            | none => Except.error "KeyError: last_name"
            | some _ =>
              match air with
              | Except.error _ =>
                (generate_email_content_with_template g contact_info).map (fun ed => (ed, st))
              | Except.ok response_text =>
                match parseResponse response_text with
                | some email_data =>
                  let st2 := save_cache
                    { st with cache := dictSet st.cache contact_id (CVal.entryLocal email_data now) }
                  Except.ok (email_data, st2)
                | none =>
                  (generate_email_content_with_template g contact_info).map (fun ed => (ed, st))

/-- The dict returned by `process_contact`. -/
structure PResult where
  contact_info : Contact
  email_data : EmailData
  from_cache : Bool
deriving DecidableEq, Repr

/-- `ProspectEmailGenerator.process_contact`: cache (local + shared) lookup,
then AI generation when requested and configured, else template generation,
then `save_to_cache`. -/
def process_contact (g : Gen) (st : GenState) (now : String)
    (air : Except String String) (contact_info : Contact) (use_ai : Bool) :
    Except String (PResult × GenState) :=
  match contact_info.email with
  | none => Except.error "KeyError: email"
  | some email =>
    match contact_info.company with
    | none => Except.error "KeyError: company"
    | some company =>
      match verify_contact_in_cache st email company with
      | (true, st1) =>
        match dictGet st1.cache (email ++ "_" ++ company) with
        | some entry => Except.ok (⟨contact_info, entry.email_data, true⟩, st1)
        | none => Except.error "KeyError: contact_id"
      | (false, st1) =>
        if use_ai && verify_api_configuration g then
          match generate_email_content_with_ai g st1 now air contact_info with
          | Except.error e => Except.error e
          | Except.ok (email_data, st2) =>
            Except.ok (⟨contact_info, email_data, false⟩,
              save_to_cache st2 now email company email_data)
        else
          match generate_email_content_with_template g contact_info with
          | Except.error e => Except.error e
          | Except.ok email_data =>
            Except.ok (⟨contact_info, email_data, false⟩,
              save_to_cache st1 now email company email_data)

/-- `ProspectEmailGenerator.clear_cache` (defined on the first, shadowed
class definition in the module): empty the in-memory cache and persist an
empty object to the backing file. -/
def clear_cache (st : GenState) : GenState :=
  { st with cache := [], cacheFile := [] }

/-- The merged variable dict of `replace_variables` (first class definition):
sender-profile variables first, then the caller-supplied variables with
Python `{**a, **b}` semantics (values override, original key positions kept). -/
def mergeVars (g : Gen) (vars : List (String × Option String)) :
    List (String × Option String) :=
  vars.foldl (fun acc kv => dictSet acc kv.1 kv.2)
    [("your_name", some g.your_name),
     ("your_position", some g.your_position),
     ("company_name", some g.company_name),
     ("your_contact", some g.your_contact)]

/-- The `{{var}}` placeholder string for a variable name. -/
def placeholderFor (var : String) : String :=
  "\x7b\x7b" ++ var ++ "\x7d\x7d"

/-- `ProspectEmailGenerator.replace_variables` (first class definition):
replace every `{{var}}` occurrence by its value (empty string for a null
value), one sequential pass per variable of the merged dict. -/
def replace_variables (g : Gen) (template : String)
    (vars : List (String × Option String)) : String :=
  (mergeVars g vars).foldl
    (fun t kv => strReplace t (placeholderFor kv.1) (kv.2.getD "")) template

/-! ### Association-list (Python dict) lemmas -/

theorem dictGet_dictSet_self (d : List (String × α)) (k : String) (v : α) :
    dictGet (dictSet d k v) k = some v := by
  induction d with
  | nil => simp [dictGet, dictSet, List.find?]
  | cons p rest ih =>
    obtain ⟨k', v'⟩ := p
    by_cases h : k' == k
    · simp [dictSet, h, dictGet, List.find?, h]
    · simp only [dictSet, h, if_false]
      simpa [dictGet, List.find?, h] using ih

theorem dictGet_dictSet_ne (d : List (String × α)) (k k' : String) (v : α)
    (h : k' ≠ k) : dictGet (dictSet d k v) k' = dictGet d k' := by
  have hkk : (k == k') = false := by
    rw [beq_eq_false_iff_ne]
    exact Ne.symm h
  induction d with
  | nil => simp [dictGet, dictSet, List.find?, hkk]
  | cons p rest ih =>
    obtain ⟨a, b⟩ := p
    by_cases ha : a == k
    · have hak : a = k := by simpa using ha
      subst hak
      simp [dictSet, dictGet, List.find?, hkk]
    · have ha' : (a == k) = false := by simpa using ha
      simp only [dictSet, ha', if_false]
      by_cases hb : a == k'
      · simp [dictGet, List.find?, hb]
      · have hb' : (a == k') = false := by simpa using hb
        simpa [dictGet, List.find?, hb'] using ih

theorem dictGet_isSome_dictSet (d : List (String × α)) (k k' : String) (v : α)
    (h : (dictGet d k').isSome) : (dictGet (dictSet d k v) k').isSome := by
  by_cases hk : k' = k
  · subst hk; simp [dictGet_dictSet_self]
  · rwa [dictGet_dictSet_ne d k k' v hk]

theorem dictSet_dictSet_same (d : List (String × α)) (k : String) (v w : α) :
    dictSet (dictSet d k v) k w = dictSet d k w := by
  induction d with
  | nil => simp [dictSet]
  | cons p rest ih =>
    obtain ⟨a, b⟩ := p
    by_cases ha : a == k
    · simp [dictSet, ha]
    · simp [dictSet, ha, ih]

theorem keys_dictSet_of_mem (d : List (String × α)) (k : String) (v : α)
    (h : k ∈ d.map Prod.fst) : (dictSet d k v).map Prod.fst = d.map Prod.fst := by
  induction d with
  | nil => simp at h
  | cons p rest ih =>
    obtain ⟨a, b⟩ := p
    by_cases ha : a == k
    · simp [dictSet, ha]
    · have hak : a ≠ k := by simpa using ha
      have hk : k ∈ rest.map Prod.fst := by
        simp at h
        rcases h with h | h
        · exact absurd h.symm hak
        · simpa using h
      simp [dictSet, ha, ih hk]

theorem mem_keys_dictSet (d : List (String × α)) (k : String) (v : α) :
    k ∈ (dictSet d k v).map Prod.fst := by
  induction d with
  | nil => simp [dictSet]
  | cons p rest ih =>
    obtain ⟨a, b⟩ := p
    by_cases ha : a == k
    · have : a = k := by simpa using ha
      simp [dictSet, ha, this]
    · have ha' : (a == k) = false := by simpa using ha
      simp [dictSet, ha', ih]

/-! ### Challenge-inference lemmas -/

theorem scanOne_fold_nodup (item : String) (l : List (String × String))
    (ch : List String) (h : ch.Nodup) : (l.foldl (scanOne item) ch).Nodup := by
  induction l generalizing ch with
  | nil => exact h
  | cons kv rest ih =>
    simp only [List.foldl_cons]
    apply ih
    unfold scanOne
    split
    case isTrue hc =>
      have hc2 : kv.2 ∉ ch := by
        simp only [Bool.and_eq_true, Bool.not_eq_true] at hc
        simpa using hc.2
      simp [List.nodup_append, h, hc2]
    case isFalse => exact h

theorem scanItems_nodup (items ch : List String) (h : ch.Nodup) :
    (scanItems items ch).Nodup := by
  unfold scanItems
  induction items generalizing ch with
  | nil => exact h
  | cons item rest ih =>
    simp only [List.foldl_cons]
    exact ih _ (scanOne_fold_nodup item tech_challenge_map ch h)

theorem scanOne_fold_mem (item : String) (l : List (String × String))
    (ch : List String) (x : String) (h : x ∈ l.foldl (scanOne item) ch) :
    x ∈ ch ∨ x ∈ l.map Prod.snd := by
  induction l generalizing ch with
  | nil => exact Or.inl h
  | cons kv rest ih =>
    simp only [List.foldl_cons] at h
    rcases ih _ h with h1 | h1
    · unfold scanOne at h1
      split at h1
      · simp at h1
        rcases h1 with h1 | h1
        · exact Or.inl h1
        · exact Or.inr (by simp [h1])
      · exact Or.inl h1
    · exact Or.inr (by simp [h1])

theorem scanItems_mem (items ch : List String) (x : String)
    (h : x ∈ scanItems items ch) : x ∈ ch ∨ x ∈ tech_challenge_map.map Prod.snd := by
  unfold scanItems at h
  induction items generalizing ch with
  | nil => exact Or.inl h
  | cons item rest ih =>
    simp only [List.foldl_cons] at h
    rcases ih _ h with h1 | h1
    · exact scanOne_fold_mem item tech_challenge_map ch x h1
    · exact Or.inr h1

/-- The possible outputs of the position-based fallback heuristic. -/
def positionChallengeValues : List String :=
  ["innovation technologique", "transformation digitale",
   "croissance de l" ++ apos ++ "entreprise", "optimisation des coûts",
   "génération de leads", "augmentation des ventes", "gestion des talents",
   "innovation produit", "efficacité opérationnelle"]

theorem positionChallenge_mem (p : String) :
    positionChallenge p ∈ positionChallengeValues := by
  unfold positionChallenge positionChallengeValues
  split_ifs <;> simp

theorem gatherChallenges_nodup (c : Contact) : (gatherChallenges c).Nodup := by
  rcases ht : c.technologies with _ | ts <;> rcases hk : c.keywords with _ | ks <;>
      simp only [gatherChallenges, ht, hk]
  · simp
  · split
    · simp
    · exact scanItems_nodup ks [] (by simp)
  · split
    · simp
    · exact scanItems_nodup ts [] (by simp)
  · have hA : (if ts.isEmpty then [] else scanItems ts []).Nodup := by
      split
      · simp
      · exact scanItems_nodup ts [] (by simp)
    split
    · exact hA
    · exact scanItems_nodup ks _ hA

theorem gatherChallenges_mem (c : Contact) (y : String)
    (h : y ∈ gatherChallenges c) : y ∈ tech_challenge_map.map Prod.snd := by
  rcases ht : c.technologies with _ | ts <;> rcases hk : c.keywords with _ | ks <;>
      simp only [gatherChallenges, ht, hk] at h
  · simp at h
  · split at h
    · simp at h
    · rcases scanItems_mem ks [] y h with h1 | h1
      · simp at h1
      · exact h1
  · split at h
    · simp at h
    · rcases scanItems_mem ts [] y h with h1 | h1
      · simp at h1
      · exact h1
  · have hA : ∀ z, z ∈ (if ts.isEmpty then [] else scanItems ts []) →
        z ∈ tech_challenge_map.map Prod.snd := by
      intro z hz
      split at hz
      · simp at hz
      · rcases scanItems_mem ts [] z hz with h1 | h1
        · simp at h1
        · exact h1
    split at h
    · exact hA y h
    · rcases scanItems_mem ks _ y h with h1 | h1
      · exact hA y h1
      · exact h1

/-- First-occurrence deduplication, the
`if challenge not in challenges: challenges.append(challenge)` pattern of
the scan, taken as one fold step. -/
def dedupStep (acc : List String) (x : String) : List String :=
  if acc.contains x then acc else acc ++ [x]

/-- Deduplicate a list keeping each element at its first occurrence. -/
def dedupFirst (l : List String) : List String :=
  l.foldl dedupStep []

/-- The raw stream of table matches for the scanned items, in scan order:
for each item in order, the challenges of the table entries whose keyword
occurs in the item, in table order (duplicates kept). -/
def rawMatches : List String → List String
  | [] => []
  | item :: rest =>
    (tech_challenge_map.filter
      (fun kv => substr (toLowerS kv.1) (toLowerS item))).map Prod.snd ++
      rawMatches rest

/-- The items the scan actually visits: the technologies list when present
and truthy, then the keywords list when present and truthy. -/
def scanInputs (c : Contact) : List String :=
  (match c.technologies with
   | some ts => if ts.isEmpty then [] else ts
   | none => []) ++
  (match c.keywords with
   | some ks => if ks.isEmpty then [] else ks
   | none => [])

theorem scanOne_fold_eq_dedup (item : String) (l : List (String × String))
    (ch : List String) :
    l.foldl (scanOne item) ch =
      ((l.filter (fun kv => substr (toLowerS kv.1) (toLowerS item))).map
        Prod.snd).foldl dedupStep ch := by
  induction l generalizing ch with
  | nil => rfl
  | cons kv rest ih =>
    simp only [List.foldl_cons, List.filter_cons]
    by_cases hm : substr (toLowerS kv.1) (toLowerS item) = true
    · have hstep : scanOne item ch kv = dedupStep ch kv.2 := by
        unfold scanOne dedupStep
        rw [hm]
        by_cases hc : ch.contains kv.2 <;> simp [hc]
      rw [hstep]
      simp only [hm, if_true, List.map_cons, List.foldl_cons]
      exact ih _
    · have hm' : substr (toLowerS kv.1) (toLowerS item) = false := by simpa using hm
      have hstep : scanOne item ch kv = ch := by
        unfold scanOne
        rw [hm']
        simp
      rw [hstep]
      simp only [hm', Bool.false_eq_true, if_false]
      exact ih ch

theorem scanItems_eq_dedup (items : List String) (ch : List String) :
    scanItems items ch = (rawMatches items).foldl dedupStep ch := by
  unfold scanItems
  induction items generalizing ch with
  | nil => rfl
  | cons item rest ih =>
    simp only [List.foldl_cons, rawMatches, List.foldl_append]
    rw [scanOne_fold_eq_dedup]
    exact ih _

theorem rawMatches_append (l1 l2 : List String) :
    rawMatches (l1 ++ l2) = rawMatches l1 ++ rawMatches l2 := by
  induction l1 with
  | nil => rfl
  | cons x rest ih => simp [rawMatches, ih]

/-- The two scan passes collect exactly the raw match stream deduplicated at
first occurrence — matches appear in first-seen order, duplicates skipped. -/
theorem gatherChallenges_eq_dedup (c : Contact) :
    gatherChallenges c = dedupFirst (rawMatches (scanInputs c)) := by
  unfold dedupFirst
  rcases ht : c.technologies with _ | ts <;> rcases hk : c.keywords with _ | ks <;>
      simp only [gatherChallenges, scanInputs, ht, hk, List.nil_append,
        List.append_nil]
  · rfl
  · split
    · rfl
    · rw [scanItems_eq_dedup]
  · split
    · rfl
    · rw [scanItems_eq_dedup]
  · by_cases hts : ts.isEmpty
    · by_cases hks : ks.isEmpty
      · simp [hts, hks, rawMatches]
      · simp only [hts, hks, Bool.false_eq_true, if_true, if_false,
          List.nil_append]
        rw [scanItems_eq_dedup]
    · by_cases hks : ks.isEmpty
      · simp only [hts, hks, Bool.false_eq_true, if_true, if_false,
          List.append_nil]
        rw [scanItems_eq_dedup]
      · simp only [hts, hks, Bool.false_eq_true, if_false]
        rw [scanItems_eq_dedup, scanItems_eq_dedup, rawMatches_append,
          List.foldl_append]

theorem dedupStep_ne_nil (acc : List String) (x : String) :
    dedupStep acc x ≠ [] ∨ acc = [] ∧ dedupStep acc x = [x] := by
  unfold dedupStep
  by_cases hc : acc.contains x
  · simp only [hc, if_true]
    cases acc with
    | nil => simp [List.contains] at hc
    | cons a rest => exact Or.inl (by simp)
  · simp only [hc, Bool.false_eq_true, if_false]
    exact Or.inl (by simp)

theorem foldl_dedupStep_ne_nil (l : List String) (acc : List String)
    (h : acc ≠ []) : l.foldl dedupStep acc ≠ [] := by
  induction l generalizing acc with
  | nil => exact h
  | cons x rest ih =>
    apply ih
    rcases dedupStep_ne_nil acc x with h1 | ⟨h1, h2⟩
    · exact h1
    · rw [h2]
      simp

theorem dedupFirst_ne_nil (l : List String) (h : l ≠ []) : dedupFirst l ≠ [] := by
  cases l with
  | nil => exact absurd rfl h
  | cons x rest =>
    unfold dedupFirst
    simp only [List.foldl_cons]
    apply foldl_dedupStep_ne_nil
    unfold dedupStep
    simp

theorem rawMatches_nil_of_nomatch (items : List String)
    (h : ∀ item ∈ items, ∀ kv ∈ tech_challenge_map,
      substr (toLowerS kv.1) (toLowerS item) = false) :
    rawMatches items = [] := by
  induction items with
  | nil => rfl
  | cons item rest ih =>
    simp only [rawMatches, List.append_eq_nil]
    constructor
    · have hfil : tech_challenge_map.filter
          (fun kv => substr (toLowerS kv.1) (toLowerS item)) = [] := by
        rw [List.filter_eq_nil_iff]
        intro kv hkv
        simp [h item (List.mem_cons_self item rest) kv hkv]
      rw [hfil]
      rfl
    · exact ih fun it hm kv hkv => h it (List.mem_cons_of_mem _ hm) kv hkv

/-- C4: for every contact record, `extract_company_challenges` returns a
non-empty list (and, being a total function of the record, never throws); an
explicit non-empty challenges list is returned verbatim; with no explicit
challenges the collected matches are duplicate-free and all drawn from the
technology/keyword table; when some table entry matches, the result is
exactly the raw match stream in first-seen scan order with duplicates
skipped; and when no table entry matches any scanned technology or keyword
item, the result is the single position-derived (or default) challenge. -/
theorem c4_theorem :
    (∀ c : Contact, extract_company_challenges c ≠ []) ∧
    (∀ (c : Contact) (x : String) (xs : List String),
      c.challenges = some (x :: xs) → extract_company_challenges c = x :: xs) ∧
    (∀ c : Contact, (c.challenges = none ∨ c.challenges = some []) →
      (extract_company_challenges c).Nodup ∧
        ∀ y ∈ extract_company_challenges c,
          y ∈ tech_challenge_map.map Prod.snd ∨ y ∈ positionChallengeValues) ∧
    (∀ c : Contact, (c.challenges = none ∨ c.challenges = some []) →
      rawMatches (scanInputs c) ≠ [] →
      extract_company_challenges c = dedupFirst (rawMatches (scanInputs c))) ∧
    (∀ c : Contact, (c.challenges = none ∨ c.challenges = some []) →
      (∀ item ∈ scanInputs c, ∀ kv ∈ tech_challenge_map,
        substr (toLowerS kv.1) (toLowerS item) = false) →
      extract_company_challenges c =
        [positionChallenge (toLowerS (c.position.getD ""))]) := by
  have hbody : ∀ c : Contact, (c.challenges = none ∨ c.challenges = some []) →
      extract_company_challenges c =
        (if (gatherChallenges c).isEmpty then
          [positionChallenge (toLowerS (c.position.getD ""))]
        else gatherChallenges c) := by
    intro c hch
    rcases hch with hch | hch <;> simp [extract_company_challenges, hch]
  refine ⟨?_, ?_, ?_, ?_, ?_⟩
  · intro c
    rcases hch : c.challenges with _ | l
    · rw [hbody c (Or.inl hch)]
      split
      · simp
      · case isFalse hne => simpa [List.isEmpty_iff] using hne
    · rcases l with _ | ⟨x, xs⟩
      · rw [hbody c (Or.inr hch)]
        split
        · simp
        · case isFalse hne => simpa [List.isEmpty_iff] using hne
      · simp [extract_company_challenges, hch]
  · intro c x xs hch
    simp [extract_company_challenges, hch]
  · intro c hch
    rw [hbody c hch]
    split
    · constructor
      · simp
      · intro y hy
        simp at hy
        subst hy
        exact Or.inr (positionChallenge_mem _)
    · exact ⟨gatherChallenges_nodup c,
        fun y hy => Or.inl (gatherChallenges_mem c y hy)⟩
  · intro c hch hne
    rw [hbody c hch]
    have hg : gatherChallenges c = dedupFirst (rawMatches (scanInputs c)) :=
      gatherChallenges_eq_dedup c
    have hgne : gatherChallenges c ≠ [] := by
      rw [hg]
      exact dedupFirst_ne_nil _ hne
    rw [if_neg (by simpa [List.isEmpty_iff] using hgne)]
    exact hg
  · intro c hch hnomatch
    rw [hbody c hch]
    have hg : gatherChallenges c = [] := by
      rw [gatherChallenges_eq_dedup c, rawMatches_nil_of_nomatch _ hnomatch]
      rfl
    simp [hg]

/-- C4 witness: the fully-empty record yields the non-empty default; an
explicit challenges list is returned verbatim; a scan result is
duplicate-free; a matching record collects the deduplicated first-seen match
stream; and a record whose technologies match no table entry falls back to
the position-derived challenge. -/
theorem c4_witness :
    extract_company_challenges ⟨none, none, none, none, none, none, none, none, none⟩ ≠ [] ∧
    extract_company_challenges
      ⟨none, none, none, none, none, none, none, none, some ["a", "b"]⟩ = ["a", "b"] ∧
    (extract_company_challenges
      ⟨none, none, none, none, none, none, some ["ai data"], none, none⟩).Nodup ∧
    extract_company_challenges
      ⟨none, none, none, none, none, none, some ["legacy mainframe"], some ["cost"], none⟩ =
      dedupFirst (rawMatches (scanInputs
        ⟨none, none, none, none, none, none, some ["legacy mainframe"], some ["cost"], none⟩)) ∧
    extract_company_challenges
      ⟨none, none, none, none, some "CEO of sales", none, some ["zzz"], none, none⟩ =
      [positionChallenge "ceo of sales"] := by
  refine ⟨c4_theorem.1 _, c4_theorem.2.1 _ "a" ["b"] rfl,
    (c4_theorem.2.2.1 ⟨none, none, none, none, none, none, some ["ai data"], none, none⟩
      (Or.inl rfl)).1,
    c4_theorem.2.2.2.1
      ⟨none, none, none, none, none, none, some ["legacy mainframe"], some ["cost"], none⟩
      (Or.inl rfl) (by decide), ?_⟩
  have h := c4_theorem.2.2.2.2
    ⟨none, none, none, none, some "CEO of sales", none, some ["zzz"], none, none⟩
    (Or.inl rfl) (by decide)
  rw [h]
  rfl

/-- C10: challenge inference does not depend on the industry field — two
records agreeing on challenges, technologies, keywords and position (but
possibly differing in industry and any other field) infer identical
challenge lists, even though `extract_company_challenges` reads the industry
field into an unused local. -/
theorem c10_theorem (c₁ c₂ : Contact)
    (hch : c₁.challenges = c₂.challenges)
    (ht : c₁.technologies = c₂.technologies)
    (hk : c₁.keywords = c₂.keywords)
    (hp : c₁.position = c₂.position) :
    extract_company_challenges c₁ = extract_company_challenges c₂ := by
  obtain ⟨f₁, l₁, e₁, co₁, p₁, i₁, t₁, k₁, ch₁⟩ := c₁
  obtain ⟨f₂, l₂, e₂, co₂, p₂, i₂, t₂, k₂, ch₂⟩ := c₂
  simp only at hch ht hk hp
  subst hch ht hk hp
  rfl

/-- C10 witness: two concrete records differing only in industry infer the
same challenges. -/
theorem c10_witness :
    extract_company_challenges
      ⟨some "A", none, none, none, some "CTO", some "finance", some ["excel"], none, none⟩ =
    extract_company_challenges
      ⟨some "A", none, none, none, some "CTO", some "retail", some ["excel"], none, none⟩ :=
  c10_theorem _ _ rfl rfl rfl rfl

/-! ### Template-substitution lemmas -/

theorem isPrefixOf_refl_char (l : List Char) : l.isPrefixOf l = true := by
  induction l with
  | nil => rfl
  | cons c rest ih => simp [List.isPrefixOf, ih]

theorem replaceL_of_not_occurs (pat repl s : List Char)
    (h : occursL pat s = false) : replaceL pat repl s = s := by
  induction s with
  | nil => simp [replaceL]
  | cons c rest ih =>
    rw [occursL] at h
    have h1 : pat.isPrefixOf (c :: rest) = false := (Bool.or_eq_false_iff.mp h).1
    have h2 : occursL pat rest = false := (Bool.or_eq_false_iff.mp h).2
    rw [replaceL, dif_neg, ih h2]
    intro hcon
    rw [h1] at hcon
    exact Bool.false_ne_true hcon.2

theorem strReplace_of_not_occurs (t pat repl : String)
    (h : occursL pat.data t.data = false) : strReplace t pat repl = t := by
  unfold strReplace
  rw [replaceL_of_not_occurs _ _ _ h]

theorem replaceL_self (pat repl : List Char) (hne : pat ≠ []) :
    replaceL pat repl pat = repl := by
  cases pat with
  | nil => exact absurd rfl hne
  | cons c rest =>
    rw [replaceL, dif_pos ⟨hne, isPrefixOf_refl_char (c :: rest)⟩,
      List.drop_length]
    simp [replaceL]

theorem strReplace_self (pat repl : String) (h : pat.data ≠ []) :
    strReplace pat pat repl = repl := by
  unfold strReplace
  rw [replaceL_self _ _ h]

theorem placeholderFor_data (v : String) :
    (placeholderFor v).data = lbrace :: lbrace :: (v.data ++ [rbrace, rbrace]) := by
  cases v with
  | mk l => rfl

theorem foldReplace_id (l : List (String × Option String)) (t : String)
    (h : ∀ kv ∈ l, occursL (placeholderFor kv.1).data t.data = false) :
    l.foldl (fun u kv => strReplace u (placeholderFor kv.1) (kv.2.getD "")) t = t := by
  induction l with
  | nil => rfl
  | cons kv rest ih =>
    simp only [List.foldl_cons]
    rw [strReplace_of_not_occurs _ _ _ (h kv (List.mem_cons_self kv rest))]
    exact ih (fun kv' hm => h kv' (List.mem_cons_of_mem _ hm))

/-- Value normalisation used to state the null-to-empty-string property of
`replace_variables`. -/
def normPair (kv : String × Option String) : String × Option String :=
  (kv.1, some (kv.2.getD ""))

theorem dictSet_map_norm (d : List (String × Option String)) (k : String)
    (v : Option String) :
    dictSet (d.map normPair) k (some (v.getD "")) = (dictSet d k v).map normPair := by
  induction d with
  | nil => simp [dictSet, normPair]
  | cons p rest ih =>
    obtain ⟨a, b⟩ := p
    by_cases ha : a == k
    · simp [dictSet, normPair, ha]
    · have ha' : (a == k) = false := by simpa using ha
      simp [dictSet, normPair, ha', ih]

theorem foldl_dictSet_map_norm (vs : List (String × Option String))
    (acc acc' : List (String × Option String)) (hacc : acc' = acc.map normPair) :
    (vs.map normPair).foldl (fun d kv => dictSet d kv.1 kv.2) acc' =
      (vs.foldl (fun d kv => dictSet d kv.1 kv.2) acc).map normPair := by
  subst hacc
  induction vs generalizing acc with
  | nil => rfl
  | cons kv rest ih =>
    simp only [List.map_cons, List.foldl_cons]
    have : dictSet (acc.map normPair) (normPair kv).1 (normPair kv).2 =
        (dictSet acc kv.1 kv.2).map normPair := dictSet_map_norm acc kv.1 kv.2
    rw [this]
    exact ih (dictSet acc kv.1 kv.2)

theorem mergeVars_map_norm (g : Gen) (vs : List (String × Option String)) :
    mergeVars g (vs.map normPair) = (mergeVars g vs).map normPair := by
  unfold mergeVars
  exact foldl_dictSet_map_norm vs _ _ rfl

theorem foldReplace_map_norm (l : List (String × Option String)) (t : String) :
    (l.map normPair).foldl
        (fun u kv => strReplace u (placeholderFor kv.1) (kv.2.getD "")) t =
      l.foldl (fun u kv => strReplace u (placeholderFor kv.1) (kv.2.getD "")) t := by
  induction l generalizing t with
  | nil => rfl
  | cons kv rest ih =>
    simp only [List.map_cons, List.foldl_cons]
    exact ih _

/-- C6: `replace_variables` is total (never raises); it is the identity on a
template in which no placeholder of the merged variable dict occurs (unknown
placeholders are left as literal markers); a `none` (null) value behaves
exactly like the empty string; and a variable's placeholder is replaced by
its value (stated for a template consisting of the placeholder, with the
other variables' markers not interfering). -/
theorem c6_theorem :
    (∀ (g : Gen) (t : String) (vs : List (String × Option String)),
      (∀ kv ∈ mergeVars g vs, occursL (placeholderFor kv.1).data t.data = false) →
      replace_variables g t vs = t) ∧
    (∀ (g : Gen) (t : String) (vs : List (String × Option String)),
      replace_variables g t (vs.map normPair) = replace_variables g t vs) ∧
    (∀ (g : Gen) (vs : List (String × Option String)) (v val : String)
      (l₁ l₂ : List (String × Option String)),
      mergeVars g vs = l₁ ++ (v, some val) :: l₂ →
      (∀ kv ∈ l₁, occursL (placeholderFor kv.1).data (placeholderFor v).data = false) →
      (∀ kv ∈ l₂, occursL (placeholderFor kv.1).data val.data = false) →
      replace_variables g (placeholderFor v) vs = val) := by
  refine ⟨?_, ?_, ?_⟩
  · intro g t vs h
    unfold replace_variables
    exact foldReplace_id _ _ h
  · intro g t vs
    unfold replace_variables
    rw [mergeVars_map_norm]
    exact foldReplace_map_norm _ _
  · intro g vs v val l₁ l₂ hmerge h₁ h₂
    unfold replace_variables
    rw [hmerge, List.foldl_append, foldReplace_id l₁ _ h₁]
    simp only [List.foldl_cons]
    have hne : (placeholderFor v).data ≠ [] := by
      rw [placeholderFor_data]
      simp
    have hstep : strReplace (placeholderFor v) (placeholderFor v)
        ((some val).getD "") = val := strReplace_self _ _ hne
    rw [hstep]
    exact foldReplace_id l₂ _ h₂

/-- C6 witness: a template whose only marker is unknown is returned
unmodified; a null variable value acts as the empty string; a known
placeholder is substituted by its value. -/
theorem c6_witness :
    replace_variables ⟨"J", "R", "A", "c", none, none, none⟩
        "Keep \x7b\x7bunknown\x7d\x7d." [("x", some "y")] =
      "Keep \x7b\x7bunknown\x7d\x7d." ∧
    replace_variables ⟨"J", "R", "A", "c", none, none, none⟩
        "Hi \x7b\x7bfirst_name\x7d\x7d" [("first_name", some "")] =
      replace_variables ⟨"J", "R", "A", "c", none, none, none⟩
        "Hi \x7b\x7bfirst_name\x7d\x7d" [("first_name", none)] ∧
    replace_variables ⟨"J", "R", "A", "c", none, none, none⟩
        (placeholderFor "first_name") [("first_name", some "Alice")] = "Alice" := by
  refine ⟨?_, ?_, ?_⟩
  · exact c6_theorem.1 _ _ _ (by decide)
  · exact c6_theorem.2.1 ⟨"J", "R", "A", "c", none, none, none⟩
      "Hi \x7b\x7bfirst_name\x7d\x7d" [("first_name", none)]
  · exact c6_theorem.2.2 _ [("first_name", some "Alice")] "first_name" "Alice"
      [("your_name", some "J"), ("your_position", some "R"),
       ("company_name", some "A"), ("your_contact", some "c")] []
      (by decide) (by decide) (by decide)

/-! ### Concrete fixtures shared by witnesses and counterexamples -/

/-- A generator with a syntactically plausible Azure configuration. -/
def gOK : Gen :=
  ⟨"John", "Rep", "ACME", "j@a.c", some "0123456789",
   some "https://x.openai.azure.com", some "gpt"⟩

/-- A generator with no Azure configuration. -/
def gBad : Gen := ⟨"John", "Rep", "ACME", "j@a.c", none, none, none⟩

/-- Empty state: empty cache and backing file, no shared or roster files. -/
def stEmpty : GenState := ⟨[], [], none, none⟩

/-- A complete contact record. -/
def cFull : Contact :=
  ⟨some "Alice", some "Martin", some "alice@acme.test", some "Acme", some "CTO",
   none, some ["legacy mainframe"], none, none⟩

/-- A contact with email and company but no name fields. -/
def cNoFirst : Contact :=
  ⟨none, none, some "a@x", some "B", none, none, none, none, none⟩

/-- A provider response that is a JSON object with both keys empty. -/
def rspEmptyVals : String :=
  "\x7b" ++ qm ++ "subject" ++ qm ++ ": " ++ qm ++ qm ++ ", " ++ qm ++ "body" ++
    qm ++ ": " ++ qm ++ qm ++ "\x7d"

/-! ### C5: primary response-parse acceptance -/

/-- C5 counterexample: a response whose parsed JSON object has both keys
present but empty is accepted by the primary strategy and becomes the
returned email content of `generate_email_content_with_ai`, contradicting
the claim that empty values are rejected. -/
theorem c5_counterexample :
    parsePrimary rspEmptyVals = some [("subject", ""), ("body", "")] ∧
    (generate_email_content_with_ai gOK stEmpty "t0" (Except.ok rspEmptyVals)
        cFull).toOption.map Prod.fst = some [("subject", ""), ("body", "")] := by
  constructor
  · decide
  · decide

/-- C5 (amended): the primary strategy takes the substring from the first
`{` to the last `}` and parses it as JSON, accepting the result exactly when
both the `subject` and `body` keys are present — values may be empty; a
parsed object lacking either key is rejected. -/
theorem c5_theorem :
    (∀ (s : String) (d : EmailData), parsePrimary s = some d →
      (dictGet d "subject").isSome ∧ (dictGet d "body").isSome) ∧
    (∀ (s : String) (i j : Nat) (d : EmailData),
      strFind s.data lbrace = some i → strRFind s.data rbrace = some j →
      jsonLoads (String.mk ((s.data.drop i).take (j + 1 - i))) = some d →
      ¬((dictGet d "subject").isSome ∧ (dictGet d "body").isSome) →
      parsePrimary s = none) := by
  constructor
  · intro s d h
    simp only [parsePrimary] at h
    split at h
    case h_1 i j =>
      split at h
      · split at h
        case h_1 ed hjson =>
          split at h
          case isTrue hcond =>
            have hc2 : (dictGet ed "subject").isSome = true ∧
                (dictGet ed "body").isSome = true := by simpa using hcond
            obtain rfl : ed = d := by injection h
            exact hc2
          case isFalse => exact absurd h (by simp)
        case h_2 => exact absurd h (by simp)
      · exact absurd h (by simp)
    case h_2 => exact absurd h (by simp)
  · intro s i j d hfind hrfind hjson hkeys
    simp only [parsePrimary]
    rw [hfind, hrfind]
    simp only
    split
    · rw [hjson]
      dsimp only
      split
      next hcond =>
        have hc2 : (dictGet d "subject").isSome = true ∧
            (dictGet d "body").isSome = true := by simpa using hcond
        exact absurd hc2 hkeys
      next _hcond => rfl
    · rfl

/-- C5 witness: a response lacking the `body` key is rejected, via the
amended acceptance condition. -/
theorem c5_witness :
    parsePrimary ("\x7b" ++ qm ++ "subject" ++ qm ++ ": " ++ qm ++ "Hi" ++ qm ++ "\x7d") =
      none ∧
    ((dictGet ([("subject", ""), ("body", "")] : EmailData) "subject").isSome = true ∧
      (dictGet ([("subject", ""), ("body", "")] : EmailData) "body").isSome = true) :=
  ⟨c5_theorem.2 _ 0 16 [("subject", "Hi")] (by decide) (by decide) (by decide)
    (by decide),
   c5_theorem.1 rspEmptyVals [("subject", ""), ("body", "")] (by decide)⟩

/-! ### Template and AI-path lemmas -/

theorem template_ok (g : Gen) (c : Contact) (comp fn : String)
    (hc : c.company = some comp) (hf : c.first_name = some fn) :
    ∃ ed, generate_email_content_with_template g c = Except.ok ed := by
  simp only [generate_email_content_with_template]
  rw [hc, hf]
  exact ⟨_, rfl⟩

theorem genai_fallback (g : Gen) (st : GenState) (now : String) (c : Contact)
    (e comp fn ln : String)
    (he : c.email = some e) (hc : c.company = some comp)
    (hf : c.first_name = some fn) (hl : c.last_name = some ln)
    (hmiss : dictGet st.cache (e ++ "_" ++ comp) = none) :
    (verify_api_configuration g = false →
      ∀ air, generate_email_content_with_ai g st now air c =
        (generate_email_content_with_template g c).map (fun ed => (ed, st))) ∧
    (∀ msg, generate_email_content_with_ai g st now (Except.error msg) c =
      (generate_email_content_with_template g c).map (fun ed => (ed, st))) ∧
    (∀ txt, parseResponse txt = none →
      generate_email_content_with_ai g st now (Except.ok txt) c =
        (generate_email_content_with_template g c).map (fun ed => (ed, st))) := by
  refine ⟨?_, ?_, ?_⟩
  · intro hcfg air
    simp only [generate_email_content_with_ai]
    rw [he, hc]
    simp only
    rw [hmiss]
    simp only [hcfg, Bool.not_false, if_true]
  · intro msg
    simp only [generate_email_content_with_ai]
    rw [he, hc]
    simp only
    rw [hmiss]
    by_cases hcfg : verify_api_configuration g
    · simp only [hcfg, Bool.not_true, Bool.false_eq_true, if_false]
      rw [hf, hl]
    · simp only [hcfg, Bool.not_false, if_true]
  · intro txt hparse
    simp only [generate_email_content_with_ai]
    rw [he, hc]
    simp only
    rw [hmiss]
    by_cases hcfg : verify_api_configuration g
    · simp only [hcfg, Bool.not_true, Bool.false_eq_true, if_false]
      rw [hf, hl]
      simp only
      rw [hparse]
    · simp only [hcfg, Bool.not_false, if_true]

/-- C2 counterexample: for the contact `{'email': 'a@x', 'company': 'B'}`
(email and company present, `first_name` absent) with no API credentials,
the invalid-configuration branch falls into the template path, which raises
`KeyError: first_name` — so the AI path does raise on a record with email
and company, refuting the claim as stated. -/
theorem c2_counterexample :
    generate_email_content_with_ai gBad stEmpty "t" (Except.error "down") cNoFirst =
      Except.error "KeyError: first_name" := by rfl

/-- C2 (amended): for every contact record with email, company, first_name
and last_name present whose identity is not already cached, every failure
mode of the AI path — invalid configuration, provider error, or response
that neither parse strategy accepts — makes
`generate_email_content_with_ai` return exactly the successful result of
`generate_email_content_with_template` for the same record, without
raising. -/
theorem c2_theorem (g : Gen) (st : GenState) (now : String) (c : Contact)
    (e comp fn ln : String)
    (he : c.email = some e) (hc : c.company = some comp)
    (hf : c.first_name = some fn) (hl : c.last_name = some ln)
    (hmiss : dictGet st.cache (e ++ "_" ++ comp) = none) :
    (verify_api_configuration g = false →
      ∀ air, ∃ ed, generate_email_content_with_template g c = Except.ok ed ∧
        generate_email_content_with_ai g st now air c = Except.ok (ed, st)) ∧
    (∀ msg, ∃ ed, generate_email_content_with_template g c = Except.ok ed ∧
      generate_email_content_with_ai g st now (Except.error msg) c =
        Except.ok (ed, st)) ∧
    (∀ txt, parseResponse txt = none →
      ∃ ed, generate_email_content_with_template g c = Except.ok ed ∧
        generate_email_content_with_ai g st now (Except.ok txt) c =
          Except.ok (ed, st)) := by
  obtain ⟨ed, hed⟩ := template_ok g c comp fn hc hf
  obtain ⟨hcfg, hprov, hparse⟩ := genai_fallback g st now c e comp fn ln he hc hf hl hmiss
  refine ⟨?_, ?_, ?_⟩
  · intro h air
    exact ⟨ed, hed, by rw [hcfg h air, hed]; rfl⟩
  · intro msg
    exact ⟨ed, hed, by rw [hprov msg, hed]; rfl⟩
  · intro txt hp
    exact ⟨ed, hed, by rw [hparse txt hp, hed]; rfl⟩

/-- C2 witness: with no credentials and a complete contact, the AI path
returns exactly the template result without raising. -/
theorem c2_witness :
    (generate_email_content_with_ai gBad stEmpty "t" (Except.error "down") cFull =
      (generate_email_content_with_template gBad cFull).map (fun ed => (ed, stEmpty))) ∧
    (generate_email_content_with_ai gOK stEmpty "t" (Except.error "down") cFull =
      (generate_email_content_with_template gOK cFull).map (fun ed => (ed, stEmpty))) ∧
    (generate_email_content_with_ai gOK stEmpty "t" (Except.ok "no json") cFull =
      (generate_email_content_with_template gOK cFull).map (fun ed => (ed, stEmpty))) := by
  refine ⟨?_, ?_, ?_⟩
  · obtain ⟨ed, hed, hai⟩ :=
      (c2_theorem gBad stEmpty "t" cFull "alice@acme.test" "Acme" "Alice" "Martin"
        rfl rfl rfl rfl rfl).1 rfl (Except.error "down")
    rw [hai, hed]
    rfl
  · obtain ⟨ed, hed, hai⟩ :=
      (c2_theorem gOK stEmpty "t" cFull "alice@acme.test" "Acme" "Alice" "Martin"
        rfl rfl rfl rfl rfl).2.1 "down"
    rw [hai, hed]
    rfl
  · obtain ⟨ed, hed, hai⟩ :=
      (c2_theorem gOK stEmpty "t" cFull "alice@acme.test" "Acme" "Alice" "Martin"
        rfl rfl rfl rfl rfl).2.2 "no json" (by rfl)
    rw [hai, hed]
    rfl

theorem verify_true_some (st : GenState) (e comp : String) (st1 : GenState)
    (h : verify_contact_in_cache st e comp = (true, st1)) :
    ∃ v, dictGet st1.cache (e ++ "_" ++ comp) = some v := by
  simp only [verify_contact_in_cache] at h
  split at h
  case h_1 v hv =>
    injection h with h1 h2
    subst h2
    exact ⟨v, hv⟩
  case h_2 =>
    split at h
    case h_1 =>
      injection h with h1 h2
      exact absurd h1 (by simp)
    case h_2 fc hfc =>
      split at h
      case h_1 entry hentry =>
        injection h with h1 h2
        subst h2
        exact ⟨entry, by
          simp only [save_cache]
          exact dictGet_dictSet_self st.cache (e ++ "_" ++ comp) entry⟩
      case h_2 =>
        injection h with h1 h2
        exact absurd h1 (by simp)

theorem genai_ok (g : Gen) (st : GenState) (now : String)
    (air : Except String String) (c : Contact) (e comp fn ln : String)
    (he : c.email = some e) (hc : c.company = some comp)
    (hf : c.first_name = some fn) (hl : c.last_name = some ln) :
    ∃ ed st2, generate_email_content_with_ai g st now air c = Except.ok (ed, st2) := by
  obtain ⟨edt, hedt⟩ := template_ok g c comp fn hc hf
  simp only [generate_email_content_with_ai]
  rw [he, hc]
  simp only
  cases hcache : dictGet st.cache (e ++ "_" ++ comp) with
  | some entry => exact ⟨entry.email_data, st, rfl⟩
  | none =>
    by_cases hcfg : verify_api_configuration g = true
    · simp only [hcfg, Bool.not_true, Bool.false_eq_true, if_false]
      rw [hf, hl]
      cases air with
      | error m => exact ⟨edt, st, by rw [hedt]; rfl⟩
      | ok txt =>
        simp only
        cases hp : parseResponse txt with
        | some d => exact ⟨d, _, rfl⟩
        | none => exact ⟨edt, st, by rw [hedt]; rfl⟩
    · have hcfg' : verify_api_configuration g = false := by simpa using hcfg
      simp only [hcfg', Bool.not_false, if_true]
      exact ⟨edt, st, by rw [hedt]; rfl⟩

/-- C3 counterexample: the contact `{'email': 'a@x', 'company': 'B'}` has
email and company present, yet `process_contact` raises
`KeyError: first_name` (through the template path), refuting "no exception
propagates for every contact record that has email and company". -/
theorem c3_counterexample :
    process_contact gBad stEmpty "t" (Except.error "down") cNoFirst false =
      Except.error "KeyError: first_name" := by rfl

/-- C3 (amended): `process_contact` raises only a `KeyError` for a missing
contact field; it never raises for a generation failure: for every contact
record with email, company, first_name and last_name present, it returns a
result for every provider behaviour, both with and without AI. -/
theorem c3_theorem (g : Gen) (st : GenState) (now : String)
    (air : Except String String) (u : Bool) (c : Contact)
    (e comp fn ln : String)
    (he : c.email = some e) (hc : c.company = some comp)
    (hf : c.first_name = some fn) (hl : c.last_name = some ln) :
    ∃ r st1, process_contact g st now air c u = Except.ok (r, st1) := by
  simp only [process_contact]
  rw [he, hc]
  simp only
  rcases hv : verify_contact_in_cache st e comp with ⟨b, st1⟩
  cases b
  · dsimp only
    by_cases hu : (u && verify_api_configuration g) = true
    · simp only [hu, if_true]
      obtain ⟨ed, st2, hai⟩ := genai_ok g st1 now air c e comp fn ln he hc hf hl
      rw [hai]
      exact ⟨_, _, rfl⟩
    · have hu' : (u && verify_api_configuration g) = false := by simpa using hu
      simp only [hu', Bool.false_eq_true, if_false]
      obtain ⟨ed, hed⟩ := template_ok g c comp fn hc hf
      rw [hed]
      exact ⟨_, _, rfl⟩
  · dsimp only
    obtain ⟨v, hv2⟩ := verify_true_some st e comp st1 hv
    rw [hv2]
    exact ⟨_, _, rfl⟩

/-- C3 witness: a complete contact is processed without error on the AI path
with a failing provider. -/
theorem c3_witness :
    (process_contact gOK stEmpty "t" (Except.error "down") cFull true).toOption.isSome =
      true := by
  obtain ⟨r, st1, h⟩ := c3_theorem gOK stEmpty "t" (Except.error "down") true cFull
    "alice@acme.test" "Acme" "Alice" "Martin" rfl rfl rfl rfl
  rw [h]
  rfl

/-! ### State lemmas for the cache write path -/

theorem sync_cache (st : GenState) (now e comp : String) (ed : EmailData) :
    (sync_with_friends_cache st now e comp ed).cache = st.cache := by
  simp only [sync_with_friends_cache]
  split
  · rfl
  · split
    · rfl
    · rfl

theorem sync_cacheFile (st : GenState) (now e comp : String) (ed : EmailData) :
    (sync_with_friends_cache st now e comp ed).cacheFile = st.cacheFile := by
  simp only [sync_with_friends_cache]
  split
  · rfl
  · split
    · rfl
    · rfl

theorem save_to_cache_cache (st : GenState) (now e comp : String) (ed : EmailData) :
    (save_to_cache st now e comp ed).cache =
      dictSet st.cache (e ++ "_" ++ comp) (CVal.entryLocal ed now) := by
  simp only [save_to_cache]
  rw [sync_cache]
  rfl

theorem save_to_cache_cacheFile (st : GenState) (now e comp : String)
    (ed : EmailData) :
    (save_to_cache st now e comp ed).cacheFile =
      dictSet st.cache (e ++ "_" ++ comp) (CVal.entryLocal ed now) := by
  simp only [save_to_cache]
  rw [sync_cacheFile]
  rfl

theorem genai_cache (g : Gen) (st : GenState) (now : String)
    (air : Except String String) (c : Contact) (ed : EmailData) (st2 : GenState)
    (h : generate_email_content_with_ai g st now air c = Except.ok (ed, st2)) :
    st2 = st ∨
      ∃ cid, st2 = save_cache
        { st with cache := dictSet st.cache cid (CVal.entryLocal ed now) } := by
  simp only [generate_email_content_with_ai] at h
  split at h
  · exact absurd h (by simp)
  split at h
  · exact absurd h (by simp)
  split at h
  case h_1 entry hentry =>
    injection h with h1
    injection h1 with h1a h1b
    exact Or.inl h1b.symm
  case h_2 =>
    split at h
    · rcases hmap : generate_email_content_with_template g c with ed' | ed'
      · rw [hmap] at h
        exact absurd h (by simp [Except.map])
      · rw [hmap] at h
        simp only [Except.map] at h
        injection h with h1
        injection h1 with h1a h1b
        exact Or.inl h1b.symm
    · split at h
      · exact absurd h (by simp)
      split at h
      · exact absurd h (by simp)
      split at h
      · rcases hmap : generate_email_content_with_template g c with ed' | ed'
        · rw [hmap] at h
          exact absurd h (by simp [Except.map])
        · rw [hmap] at h
          simp only [Except.map] at h
          injection h with h1
          injection h1 with h1a h1b
          exact Or.inl h1b.symm
      · split at h
        case h_1 d hd =>
          injection h with h1
          injection h1 with h1a h1b
          subst h1a
          exact Or.inr ⟨_, h1b.symm⟩
        case h_2 =>
          rcases hmap : generate_email_content_with_template g c with ed' | ed'
          · rw [hmap] at h
            exact absurd h (by simp [Except.map])
          · rw [hmap] at h
            simp only [Except.map] at h
            injection h with h1
            injection h1 with h1a h1b
            exact Or.inl h1b.symm

theorem process_ok_cached (g : Gen) (st : GenState) (now : String)
    (air : Except String String) (u : Bool) (c : Contact) (e comp : String)
    (r : PResult) (st1 : GenState)
    (he : c.email = some e) (hc : c.company = some comp)
    (h : process_contact g st now air c u = Except.ok (r, st1)) :
    ∃ v, dictGet st1.cache (e ++ "_" ++ comp) = some v ∧
      v.email_data = r.email_data := by
  simp only [process_contact] at h
  rw [he, hc] at h
  simp only at h
  rcases hv : verify_contact_in_cache st e comp with ⟨b, stv⟩
  rw [hv] at h
  cases b
  · dsimp only at h
    split at h
    · split at h
      case h_1 => exact absurd h (by simp)
      case h_2 ed st2 hai =>
        injection h with h1
        injection h1 with hr hst
        subst hst
        refine ⟨CVal.entryLocal ed now, ?_, ?_⟩
        · rw [save_to_cache_cache, dictGet_dictSet_self]
        · rw [← hr]
          rfl
    · split at h
      case h_1 => exact absurd h (by simp)
      case h_2 ed hed =>
        injection h with h1
        injection h1 with hr hst
        subst hst
        refine ⟨CVal.entryLocal ed now, ?_, ?_⟩
        · rw [save_to_cache_cache, dictGet_dictSet_self]
        · rw [← hr]
          rfl
  · dsimp only at h
    split at h
    case h_1 v hv2 =>
      injection h with h1
      injection h1 with hr hst
      subst hst
      exact ⟨v, hv2, by rw [← hr]⟩
    case h_2 => exact absurd h (by simp)

/-- C1: identity determinism via the cache. After any successful
`process_contact` call for a contact with identity `e ++ "_" ++ comp`, a
second call for the same (email, company) pair — with any provider oracle,
any clock, any mode, and any other contact fields — returns exactly the
first call's {subject, body} object from the cache (`from_cache = true`)
and leaves the state unchanged: the AI provider is never consulted again. -/
theorem c1_theorem (g : Gen) (st : GenState) (now now2 : String)
    (air air2 : Except String String) (u u2 : Bool) (c c2 : Contact)
    (e comp : String) (r : PResult) (st1 : GenState)
    (he : c.email = some e) (hc : c.company = some comp)
    (he2 : c2.email = some e) (hc2 : c2.company = some comp)
    (h : process_contact g st now air c u = Except.ok (r, st1)) :
    process_contact g st1 now2 air2 c2 u2 =
      Except.ok (⟨c2, r.email_data, true⟩, st1) := by
  obtain ⟨v, hvget, hvd⟩ := process_ok_cached g st now air u c e comp r st1 he hc h
  simp only [process_contact]
  rw [he2, hc2]
  simp only
  have hverify : verify_contact_in_cache st1 e comp = (true, st1) := by
    simp only [verify_contact_in_cache, hvget]
  rw [hverify]
  dsimp only
  rw [hvget]
  dsimp only
  rw [hvd]

/-- Local cache state holding one previously generated entry. -/
def stSeed : GenState :=
  ⟨[("a@x_B", CVal.entryLocal [("subject", "s"), ("body", "b")] "t0")],
   [("a@x_B", CVal.entryLocal [("subject", "s"), ("body", "b")] "t0")], none, none⟩

/-- C1 witness: a second call for the identity `a@x_B` — now with AI
requested and a failing provider oracle — returns the cached pair and the
unchanged state. -/
theorem c1_witness :
    process_contact gOK stSeed "t2" (Except.error "down") cNoFirst true =
      Except.ok (⟨cNoFirst, [("subject", "s"), ("body", "b")], true⟩, stSeed) :=
  c1_theorem gOK stSeed "t1" "t2" (Except.ok "resp") (Except.error "down") false true
    cNoFirst cNoFirst "a@x" "B"
    ⟨cNoFirst, [("subject", "s"), ("body", "b")], true⟩ stSeed
    rfl rfl rfl rfl (by rfl)

/-- C7: shared-cache absorption. For an identity absent from the local cache
but present in the friends shared-cache file, `process_contact` returns the
shared entry's email data without any generation (for every provider
oracle), and afterwards the entry is present in the local cache and
persisted to the backing file. -/
theorem c7_theorem (g : Gen) (st : GenState) (now : String)
    (air : Except String String) (u : Bool) (c : Contact) (e comp : String)
    (sc : List (String × CVal)) (entry : CVal)
    (he : c.email = some e) (hc : c.company = some comp)
    (hmiss : dictGet st.cache (e ++ "_" ++ comp) = none)
    (hsf : st.sharedFile = some sc)
    (hhit : dictGet sc (e ++ "_" ++ comp) = some entry) :
    ∃ st1, process_contact g st now air c u =
        Except.ok (⟨c, entry.email_data, true⟩, st1) ∧
      dictGet st1.cache (e ++ "_" ++ comp) = some entry ∧
      st1.cacheFile = st1.cache := by
  have hget : dictGet (save_cache
      { st with cache := dictSet st.cache (e ++ "_" ++ comp) entry }).cache
        (e ++ "_" ++ comp) = some entry := by
    simp only [save_cache]
    exact dictGet_dictSet_self st.cache (e ++ "_" ++ comp) entry
  have hverify : verify_contact_in_cache st e comp =
      (true, save_cache { st with cache := dictSet st.cache (e ++ "_" ++ comp) entry }) := by
    simp only [verify_contact_in_cache, hmiss, hsf, hhit]
  refine ⟨_, ?_, hget, rfl⟩
  simp only [process_contact]
  rw [he, hc]
  simp only
  rw [hverify]
  dsimp only
  rw [hget]

/-- State with an empty local cache and one shared-cache entry. -/
def stShared : GenState :=
  ⟨[], [],
   some [("a@x_B", CVal.entryShared "a@x" "B" "t0" [("subject", "s"), ("body", "b")])],
   none⟩

/-- C7 witness: the shared entry for `a@x_B` is returned, absorbed into the
local cache and persisted. -/
theorem c7_witness :
    (process_contact gBad stShared "t1" (Except.error "down") cNoFirst
        false).toOption.map
      (fun p => (p.1.email_data, (dictGet p.2.cache "a@x_B").isSome,
        p.2.cacheFile == p.2.cache)) =
      some ([("subject", "s"), ("body", "b")], true, true) := by
  obtain ⟨st1, h1, h2, h3⟩ := c7_theorem gBad stShared "t1" (Except.error "down") false
    cNoFirst "a@x" "B"
    [("a@x_B", CVal.entryShared "a@x" "B" "t0" [("subject", "s"), ("body", "b")])]
    (CVal.entryShared "a@x" "B" "t0" [("subject", "s"), ("body", "b")])
    rfl rfl rfl rfl rfl
  rw [h1]
  have h2b : (dictGet st1.cache "a@x_B").isSome = true := by
    rw [show ("a@x_B" : String) = "a@x" ++ "_" ++ "B" from rfl, h2]
    rfl
  simp only [Except.toOption, Option.map, Option.some.injEq]
  rw [h2b, h3]
  simp
  rfl

/-! ### Idempotence and monotonicity of cache writes -/

theorem save_to_cache_idem (st : GenState) (now e comp : String) (ed : EmailData) :
    save_to_cache (save_to_cache st now e comp ed) now e comp ed =
      save_to_cache st now e comp ed := by
  simp only [save_to_cache, save_cache, sync_with_friends_cache]
  cases hf : st.friendsFile with
  | none => simp [dictSet_dictSet_same]
  | some friends =>
    by_cases hact : (friends.filter (fun b => b)).isEmpty
    · simp [hact, dictSet_dictSet_same]
    · simp [hact, dictSet_dictSet_same]

/-- C8 counterexample: two puts of the same entry at different clock
readings leave different backing-file contents — the refreshed `timestamp`
field changes the stored JSON — refuting byte-for-byte idempotence as
stated. -/
theorem c8_counterexample :
    (save_to_cache (save_to_cache stEmpty "t1" "a@x" "B" [("subject", "s"), ("body", "b")])
        "t2" "a@x" "B" [("subject", "s"), ("body", "b")]).cacheFile ≠
      (save_to_cache stEmpty "t1" "a@x" "B" [("subject", "s"), ("body", "b")]).cacheFile := by
  decide

/-- C8 (amended): `save_to_cache` is idempotent up to the entry's refreshed
timestamp — a second put of the same entry leaves the backing file's key
sequence and every entry's email data unchanged, and when the second put
records the same timestamp the whole state (backing file included) is
byte-identical. -/
theorem c8_theorem (st : GenState) (now now2 e comp : String) (ed : EmailData) :
    ((save_to_cache (save_to_cache st now e comp ed) now2 e comp ed).cacheFile.map
        Prod.fst =
      (save_to_cache st now e comp ed).cacheFile.map Prod.fst) ∧
    (∀ k, (dictGet (save_to_cache (save_to_cache st now e comp ed) now2 e comp
          ed).cacheFile k).map CVal.email_data =
      (dictGet (save_to_cache st now e comp ed).cacheFile k).map CVal.email_data) ∧
    (now2 = now →
      save_to_cache (save_to_cache st now e comp ed) now2 e comp ed =
        save_to_cache st now e comp ed) := by
  have hc1 : (save_to_cache st now e comp ed).cache =
      dictSet st.cache (e ++ "_" ++ comp) (CVal.entryLocal ed now) :=
    save_to_cache_cache st now e comp ed
  have hf1 : (save_to_cache st now e comp ed).cacheFile =
      dictSet st.cache (e ++ "_" ++ comp) (CVal.entryLocal ed now) :=
    save_to_cache_cacheFile st now e comp ed
  have hf2 : (save_to_cache (save_to_cache st now e comp ed) now2 e comp
      ed).cacheFile = dictSet (dictSet st.cache (e ++ "_" ++ comp)
        (CVal.entryLocal ed now)) (e ++ "_" ++ comp) (CVal.entryLocal ed now2) := by
    rw [save_to_cache_cacheFile, hc1]
  refine ⟨?_, ?_, ?_⟩
  · rw [hf2, hf1]
    exact keys_dictSet_of_mem _ _ _ (mem_keys_dictSet _ _ _)
  · intro k
    rw [hf2, hf1]
    by_cases hk : k = e ++ "_" ++ comp
    · subst hk
      rw [dictGet_dictSet_self, dictGet_dictSet_self]
      rfl
    · rw [dictGet_dictSet_ne _ _ _ _ hk]
  · intro hnow
    subst hnow
    exact save_to_cache_idem st now2 e comp ed

/-- C8 witness: key sequence preserved across a re-put at a different clock,
and full idempotence at the same clock. -/
theorem c8_witness :
    ((save_to_cache (save_to_cache stEmpty "t1" "a@x" "B" [("subject", "s"), ("body", "b")])
          "t2" "a@x" "B" [("subject", "s"), ("body", "b")]).cacheFile.map Prod.fst =
      (save_to_cache stEmpty "t1" "a@x" "B"
        [("subject", "s"), ("body", "b")]).cacheFile.map Prod.fst) ∧
    save_to_cache (save_to_cache stEmpty "t1" "a@x" "B" [("subject", "s"), ("body", "b")])
        "t1" "a@x" "B" [("subject", "s"), ("body", "b")] =
      save_to_cache stEmpty "t1" "a@x" "B" [("subject", "s"), ("body", "b")] :=
  ⟨(c8_theorem stEmpty "t1" "t2" "a@x" "B" [("subject", "s"), ("body", "b")]).1,
   (c8_theorem stEmpty "t1" "t1" "a@x" "B" [("subject", "s"), ("body", "b")]).2.2 rfl⟩

theorem verify_state (st : GenState) (e comp : String) (b : Bool) (st1 : GenState)
    (h : verify_contact_in_cache st e comp = (b, st1)) :
    st1 = st ∨ ∃ entry, st1 = save_cache
      { st with cache := dictSet st.cache (e ++ "_" ++ comp) entry } := by
  simp only [verify_contact_in_cache] at h
  split at h
  · injection h with h1 h2
    exact Or.inl h2.symm
  · split at h
    · injection h with h1 h2
      exact Or.inl h2.symm
    · split at h
      case h_1 entry hentry =>
        injection h with h1 h2
        exact Or.inr ⟨entry, h2.symm⟩
      case h_2 =>
        injection h with h1 h2
        exact Or.inl h2.symm

theorem verify_cache_mono (st : GenState) (e comp : String) (b : Bool)
    (st1 : GenState) (h : verify_contact_in_cache st e comp = (b, st1))
    (k : String) (hk : (dictGet st.cache k).isSome = true) :
    (dictGet st1.cache k).isSome = true := by
  rcases verify_state st e comp b st1 h with rfl | ⟨entry, rfl⟩
  · exact hk
  · simp only [save_cache]
    exact dictGet_isSome_dictSet _ _ _ _ hk

theorem genai_cache_mono (g : Gen) (st : GenState) (now : String)
    (air : Except String String) (c : Contact) (ed : EmailData) (st2 : GenState)
    (h : generate_email_content_with_ai g st now air c = Except.ok (ed, st2))
    (k : String) (hk : (dictGet st.cache k).isSome = true) :
    (dictGet st2.cache k).isSome = true := by
  rcases genai_cache g st now air c ed st2 h with rfl | ⟨cid, rfl⟩
  · exact hk
  · simp only [save_cache]
    exact dictGet_isSome_dictSet _ _ _ _ hk

/-- C9: after `clear_cache`, every identity reports not-found and the
backing file holds the empty object; and no other operation removes an
individual entry — `save_to_cache`, `verify_contact_in_cache` and
`process_contact` all preserve every key already present in the cache. -/
theorem c9_theorem (st : GenState) :
    (∀ k, dictGet (clear_cache st).cache k = none) ∧
    (clear_cache st).cacheFile = [] ∧
    (∀ (now e comp : String) (ed : EmailData) (k : String),
      (dictGet st.cache k).isSome = true →
      (dictGet (save_to_cache st now e comp ed).cache k).isSome = true) ∧
    (∀ (e comp k : String), (dictGet st.cache k).isSome = true →
      (dictGet (verify_contact_in_cache st e comp).2.cache k).isSome = true) ∧
    (∀ (g : Gen) (now : String) (air : Except String String) (c : Contact)
      (u : Bool) (r : PResult) (st1 : GenState) (k : String),
      process_contact g st now air c u = Except.ok (r, st1) →
      (dictGet st.cache k).isSome = true →
      (dictGet st1.cache k).isSome = true) := by
  refine ⟨fun k => rfl, rfl, ?_, ?_, ?_⟩
  · intro now e comp ed k hk
    rw [save_to_cache_cache]
    exact dictGet_isSome_dictSet _ _ _ _ hk
  · intro e comp k hk
    rcases hv : verify_contact_in_cache st e comp with ⟨b, st1⟩
    exact verify_cache_mono st e comp b st1 hv k hk
  · intro g now air c u r st1 k hproc hk
    simp only [process_contact] at hproc
    cases hce : c.email with
    | none => rw [hce] at hproc; exact absurd hproc (by simp)
    | some e =>
      cases hcc : c.company with
      | none => rw [hce, hcc] at hproc; exact absurd hproc (by simp)
      | some comp =>
        rw [hce, hcc] at hproc
        simp only at hproc
        rcases hv : verify_contact_in_cache st e comp with ⟨b, stv⟩
        rw [hv] at hproc
        have hmono1 := verify_cache_mono st e comp b stv hv k hk
        cases b
        · dsimp only at hproc
          split at hproc
          · split at hproc
            case h_1 => exact absurd hproc (by simp)
            case h_2 ed st2 hai =>
              injection hproc with h1
              injection h1 with hr hst
              subst hst
              rw [save_to_cache_cache]
              exact dictGet_isSome_dictSet _ _ _ _
                (genai_cache_mono g stv now air c ed st2 hai k hmono1)
          · split at hproc
            case h_1 => exact absurd hproc (by simp)
            case h_2 ed hed =>
              injection hproc with h1
              injection h1 with hr hst
              subst hst
              rw [save_to_cache_cache]
              exact dictGet_isSome_dictSet _ _ _ _ hmono1
        · dsimp only at hproc
          split at hproc
          case h_1 v hv2 =>
            injection hproc with h1
            injection h1 with hr hst
            subst hst
            exact hmono1
          case h_2 => exact absurd hproc (by simp)

/-- C9 witness: concrete clear and lookups, plus preservation of the seeded
key by a put, a lookup and a full processing call. -/
theorem c9_witness :
    dictGet (clear_cache stSeed).cache "a@x_B" = none ∧
    (clear_cache stSeed).cacheFile = [] ∧
    (dictGet (save_to_cache stSeed "t3" "c@y" "D"
      [("subject", "s2"), ("body", "b2")]).cache "a@x_B").isSome = true ∧
    (dictGet (verify_contact_in_cache stSeed "c@y" "D").2.cache "a@x_B").isSome = true ∧
    (dictGet stSeed.cache "a@x_B").isSome = true := by
  refine ⟨(c9_theorem stSeed).1 "a@x_B", (c9_theorem stSeed).2.1, ?_, ?_, ?_⟩
  · exact (c9_theorem stSeed).2.2.1 "t3" "c@y" "D"
      [("subject", "s2"), ("body", "b2")] "a@x_B" (by rfl)
  · exact (c9_theorem stSeed).2.2.2.1 "c@y" "D" "a@x_B" (by rfl)
  · have := (c9_theorem stSeed).2.2.2.2 gBad "t" (Except.error "x") cNoFirst false
      ⟨cNoFirst, [("subject", "s"), ("body", "b")], true⟩ stSeed "a@x_B"
      (by rfl) (by rfl)
    exact this
